import Mathlib

/-!
Shallow embedding of `lib/classes/many_to_many.py`: three entity classes
(`Author`, `Magazine`, `Article`) with class-level registries, constructor
validation, mutating property setters, and derived relationship queries.

Modelling choices, all forced by the Python semantics of the source:
* Each registry is a list in a global `State`; an entity reference is its
  index in its registry.  Python object identity (`==` on these classes is
  the default identity comparison) becomes index equality.  Every live
  `Author`/`Magazine` instance is registered, because every constructor
  appends `self` to the class-level `all` list before returning, so
  "is an instance of the class" coincides with "is a valid registry index".
* Arguments whose type the code checks with `isinstance` are modelled by the
  sum type `PyVal`, so that passing a non-string where a string is expected
  (etc.) is expressible.
* `raise Exception(...)` becomes `Except.error` with the message from the
  source; a raised exception aborts the method before any mutation that
  textually follows it, which `Except` models exactly.
* A Python `dict` keyed by objects keeps its keys in first-insertion order;
  `dictKeys` computes that key order and `List.count` the stored counts.
-/

/-- A magazine's mutable fields (`Magazine._name`, `Magazine._category`). -/
structure Mag where
  name : String
  category : String
  deriving DecidableEq, Inhabited

/-- An article's fields: `_author` and `_magazine` are registry indices
(Python object references), `_title` the stored title string. -/
structure Art where
  authorId : Nat
  magId : Nat
  title : String
  deriving DecidableEq, Inhabited

/-- The process-wide state: the three class-level `all` registries. -/
structure State where
  authors : List String
  magazines : List Mag
  articles : List Art
  deriving DecidableEq, Inhabited

/-- A Python value as passed to a constructor or setter: a reference to a
registered Author, a reference to a registered Magazine, a string, or some
other object (modelled by an integer) that fails every `isinstance` check. -/
inductive PyVal where
  | authorRef (id : Nat)
  | magRef (id : Nat)
  | str (s : String)
  | intVal (n : Int)
  deriving DecidableEq

/-- `isinstance(v, Author)`: in the source every `Author` instance is in
`Author.all`, so being an `Author` instance is being a valid index into the
author registry. -/
def isAuthorInstance (st : State) : PyVal → Bool
  | .authorRef id => id < st.authors.length
  | _ => false

/-- `isinstance(v, Magazine)`. -/
def isMagazineInstance (st : State) : PyVal → Bool
  | .magRef id => id < st.magazines.length
  | _ => false

/-- `Author.__init__` (source lines 93-110): validates that `name` is a
string of positive length, then stores it and appends to `Author.all`.
Returns the new state and the new author's registry index. -/
def Author_init (st : State) (name : PyVal) : Except String (State × Nat) :=
  match name with
  | .str s =>
    if s.length ≤ 0 then Except.error "Name must be longer than 0 characters"
    else Except.ok ({ st with authors := st.authors ++ [s] }, st.authors.length)
  | _ => Except.error "Name must be a string"

/-- `Magazine.__init__` (source lines 173-197): validates `name` (string,
length in [2,16]) then `category` (string, positive length), then registers. -/
def Magazine_init (st : State) (name category : PyVal) : Except String (State × Nat) :=
  match name with
  | .str n =>
    if ¬ (2 ≤ n.length ∧ n.length ≤ 16) then
      Except.error "Name must be between 2 and 16 characters inclusive"
    else
      match category with
      | .str c =>
        if c.length ≤ 0 then Except.error "Category must be longer than 0 characters"
        else Except.ok ({ st with magazines := st.magazines ++ [⟨n, c⟩] }, st.magazines.length)
      | _ => Except.error "Category must be a string"
  | _ => Except.error "Name must be a string"

/-- `Article.__init__` (source lines 6-38): validates `author`, then
`magazine`, then that `title` is a string, then the title length, and only
then stores the fields and appends to `Article.all`. -/
def Article_init (st : State) (author magazine title : PyVal) : Except String (State × Nat) :=
  match author with
  | .authorRef aid =>
    if aid < st.authors.length then
      match magazine with
      | .magRef mid =>
        if mid < st.magazines.length then
          match title with
          | .str t =>
            if 5 ≤ t.length ∧ t.length ≤ 50 then
              Except.ok ({ st with articles := st.articles ++ [⟨aid, mid, t⟩] },
                st.articles.length)
            else Except.error "Title must be between 5 and 50 characters inclusive"
          | _ => Except.error "Title must be a string"
        else Except.error "Magazine must be an instance of Magazine class"
      | _ => Except.error "Magazine must be an instance of Magazine class"
    else Except.error "Author must be an instance of Author class"
  | _ => Except.error "Author must be an instance of Author class"

/-- The `Magazine.name` property getter. -/
def magName (st : State) (mid : Nat) : String :=
  (st.magazines.getD mid default).name

/-- The `Magazine.category` property getter. -/
def magCategory (st : State) (mid : Nat) : String :=
  (st.magazines.getD mid default).category

/-- The `Magazine.name` setter (source lines 208-214): validates the new
value, then assigns `self._name`. -/
def Magazine_set_name (st : State) (mid : Nat) (v : PyVal) : Except String State :=
  match v with
  | .str n =>
    if ¬ (2 ≤ n.length ∧ n.length ≤ 16) then
      Except.error "Name must be between 2 and 16 characters inclusive"
    else
      let m := st.magazines.getD mid default
      Except.ok { st with magazines := st.magazines.set mid { m with name := n } }
  | _ => Except.error "Name must be a string"

/-- The `Magazine.category` setter (source lines 225-231). -/
def Magazine_set_category (st : State) (mid : Nat) (v : PyVal) : Except String State :=
  match v with
  | .str c =>
    if c.length ≤ 0 then Except.error "Category must be longer than 0 characters"
    else
      let m := st.magazines.getD mid default
      Except.ok { st with magazines := st.magazines.set mid { m with category := c } }
  | _ => Except.error "Category must be a string"

/-- The `Article.author` setter (source lines 64-68): validates the new
author, then reassigns the reference. -/
def Article_set_author (st : State) (i : Nat) (v : PyVal) : Except String State :=
  match v with
  | .authorRef bid =>
    if bid < st.authors.length then
      let a := st.articles.getD i default
      Except.ok { st with articles := st.articles.set i { a with authorId := bid } }
    else Except.error "Author must be an instance of Author class"
  | _ => Except.error "Author must be an instance of Author class"

/-- The `Article.magazine` setter (source lines 82-86). -/
def Article_set_magazine (st : State) (i : Nat) (v : PyVal) : Except String State :=
  match v with
  | .magRef bid =>
    if bid < st.magazines.length then
      let a := st.articles.getD i default
      Except.ok { st with articles := st.articles.set i { a with magId := bid } }
    else Except.error "Magazine must be an instance of Magazine class"
  | _ => Except.error "Magazine must be an instance of Magazine class"

/-- Assignment to `article.title`: the source (lines 40-50) defines `title`
as a property with a getter and no setter, so by Python property semantics
any assignment raises `AttributeError` and changes nothing. -/
def Article_set_title (st : State) (i : Nat) (v : PyVal) : Except String State :=
  match st, i, v with
  | _, _, _ => Except.error "AttributeError: property title has no setter"

/-- Run a constructor call from state `st`: on success the new state, on a
raised exception the caller still sees `st` (the source performs all
mutation after all validation). -/
def run (st : State) (r : Except String (State × Nat)) : State :=
  match r with
  | .ok p => p.1
  | .error _ => st

/-- Run a setter call from state `st`: on a raised exception the field
assignment was never reached, so the caller still sees `st`. -/
def runSet (st : State) (r : Except String State) : State :=
  match r with
  | .ok st' => st'
  | .error _ => st

/-- Whether an `Except` result is a normal return (no exception raised). -/
def okB {α : Type} (r : Except String α) : Bool :=
  match r with
  | .ok _ => true
  | .error _ => false

/-- `Author.articles` (source lines 121-127):
`[article for article in Article.all if article.author == self]`; `==` on
`Author` is identity, i.e. index equality. -/
def Author_articles (st : State) (aid : Nat) : List Art :=
  st.articles.filter (fun a => a.authorId == aid)

/-- `Magazine.articles` (source lines 233-239). -/
def Magazine_articles (st : State) (mid : Nat) : List Art :=
  st.articles.filter (fun a => a.magId == mid)

/-- The key list of a Python `dict` built by repeated
`d[k] = d.get(k, 0) + 1` over a list of keys: each key once, in
first-insertion order. -/
def dictKeys {α : Type} [DecidableEq α] : List α → List α
  | [] => []
  | x :: xs => x :: (dictKeys xs).filter (fun y => decide (y ≠ x))

/-- Python `max(items, key=cnt)` over a nonempty list `b :: l`: scans left
to right and replaces the current best only on a strictly greater key, so it
returns the first element attaining the maximum. -/
def foldBest (cnt : Nat → Nat) (b : Nat) (l : List Nat) : Nat :=
  l.foldl (fun best x => if cnt best < cnt x then x else best) b

/-- The value `magazine_counts[mid]` of `Magazine.top_publisher`: the number
of articles in the global registry whose `magazine` field references `mid`. -/
def countMag (st : State) (mid : Nat) : Nat :=
  (st.articles.map (fun a => a.magId)).count mid

/-- `Magazine.top_publisher` (source lines 275-295): `None` when no article
exists; otherwise builds `magazine_counts` (keys in first-encounter order of
the registry scan, values the per-magazine counts) and takes
`max(..., key=count)`. -/
def top_publisher (st : State) : Option Nat :=
  if st.articles = [] then none
  else
    match dictKeys (st.articles.map (fun a => a.magId)) with
    | [] => none
    | m :: ms => some (foldBest (countMag st) m ms)

/-- `Magazine.contributing_authors` (source lines 261-273): counts this
magazine's articles per author (dict keyed by author, first-encounter
order), keeps authors with count > 2, and returns `None` for an empty
result. -/
def Magazine_contributing_authors (st : State) (mid : Nat) : Option (List Nat) :=
  let authorIds := (Magazine_articles st mid).map (fun a => a.authorId)
  let prolific := (dictKeys authorIds).filter (fun a => decide (2 < authorIds.count a))
  if prolific = [] then none else some prolific

/-- `Author.topic_areas` (source lines 157-166): `None` when the author has
no articles, otherwise `list(set(...))` of the categories of the articles'
magazines; the set collapses duplicates, modelled as first-occurrence
deduplication (the set's iteration order is unspecified in Python, and no
claim depends on it). -/
def Author_topic_areas (st : State) (aid : Nat) : Option (List String) :=
  if Author_articles st aid = [] then none
  else some (dictKeys ((Author_articles st aid).map
    (fun a => (st.magazines.getD a.magId default).category)))

/-! ### Helper lemmas about list primitives -/

theorem getD_set_self {α : Type} [Inhabited α] (l : List α) (i : Nat) (x : α)
    (h : i < l.length) : (l.set i x).getD i default = x := by
  simp [List.getD_eq_getElem?_getD, List.getElem?_set_self h]

theorem getD_set_ne {α : Type} [Inhabited α] (l : List α) {i j : Nat} (x : α)
    (h : i ≠ j) : (l.set i x).getD j default = l.getD j default := by
  simp [List.getD_eq_getElem?_getD, List.getElem?_set_ne h]

/-! ### Concrete states used by the witness theorems -/

/-- A concrete state: two authors, two magazines, four articles (three by
author 0 in magazine 0, one by author 1 in magazine 1). -/
def exSt : State where
  authors := ["Ama", "Bob"]
  magazines := [⟨"Vogue", "Fashion"⟩, ⟨"Wired", "Tech"⟩]
  articles := [⟨0, 0, "Cool story"⟩, ⟨0, 0, "Hot take now"⟩, ⟨0, 0, "Deep dive in"⟩,
    ⟨1, 1, "Tech trends"⟩]

/-- A concrete state where magazines 1 and 0 tie at two articles each, and
magazine 1 owns the earliest article in the registry. -/
def exSt2 : State where
  authors := ["Ama"]
  magazines := [⟨"Vogue", "Fashion"⟩, ⟨"Wired", "Tech"⟩]
  articles := [⟨0, 1, "First piece"⟩, ⟨0, 0, "Cool story"⟩, ⟨0, 0, "Hot take now"⟩,
    ⟨0, 1, "Tech trends"⟩]

/-! ### C1 -/

/-- C1: `Article.__init__` succeeds iff the author is a registered Author,
the magazine is a registered Magazine, and the title is a string of length
in [5,50]; for a title string of any other length it raises and the article
registry is unchanged. -/
theorem article_construct_spec (st : State) (author magazine title : PyVal) :
    (okB (Article_init st author magazine title) = true ↔
      (isAuthorInstance st author = true ∧ isMagazineInstance st magazine = true ∧
        ∃ t, title = PyVal.str t ∧ 5 ≤ t.length ∧ t.length ≤ 50)) ∧
    (∀ s, title = PyVal.str s → s.length < 5 ∨ 50 < s.length →
      (∃ e, Article_init st author magazine title = Except.error e) ∧
      (run st (Article_init st author magazine title)).articles = st.articles) := by
  constructor
  · cases author <;> cases magazine <;> cases title <;>
      simp only [Article_init, isAuthorInstance, isMagazineInstance] <;>
      (try split_ifs) <;> simp_all [okB]
  · rintro s rfl hs
    have hlen : ¬ (5 ≤ s.length ∧ s.length ≤ 50) := by omega
    cases author <;> cases magazine <;>
      simp only [Article_init] <;>
      (try split_ifs) <;> simp_all [run]

/-- Witness for C1 at a concrete bad title (length 2). -/
theorem article_construct_spec_witness :
    (∃ e, Article_init exSt (PyVal.authorRef 0) (PyVal.magRef 0) (PyVal.str "Hi") =
      Except.error e) ∧
    (run exSt (Article_init exSt (PyVal.authorRef 0) (PyVal.magRef 0)
      (PyVal.str "Hi"))).articles = exSt.articles :=
  (article_construct_spec exSt (PyVal.authorRef 0) (PyVal.magRef 0)
    (PyVal.str "Hi")).2 "Hi" rfl (by decide)

/-! ### Lemmas about `dictKeys` and `foldBest` -/

theorem mem_dictKeys {α : Type} [DecidableEq α] (l : List α) (x : α) :
    x ∈ dictKeys l ↔ x ∈ l := by
  induction l with
  | nil => simp [dictKeys]
  | cons a as ih =>
    simp only [dictKeys, List.mem_cons, List.mem_filter, decide_eq_true_eq, ih]
    by_cases hx : x = a
    · simp [hx]
    · simp [hx]

theorem filter_eq_append_cons {α : Type} (p : α → Bool) :
    ∀ (L A B : List α) (r : α), L.filter p = A ++ r :: B →
      ∃ A2 B2, L = A2 ++ r :: B2 ∧ B2.filter p = B := by
  intro L
  induction L with
  | nil => intro A B r h; simp at h
  | cons x xs ih =>
    intro A B r h
    by_cases hp : p x = true
    · rw [List.filter_cons_of_pos hp] at h
      cases A with
      | nil =>
        simp only [List.nil_append, List.cons.injEq] at h
        exact ⟨[], xs, by simp [h.1], h.2⟩
      | cons a A1 =>
        simp only [List.cons_append, List.cons.injEq] at h
        obtain ⟨rfl, h2⟩ := h
        obtain ⟨A2, B2, rfl, hB⟩ := ih A1 B r h2
        exact ⟨x :: A2, B2, rfl, hB⟩
    · rw [List.filter_cons_of_neg (by simpa using hp)] at h
      obtain ⟨A2, B2, rfl, hB⟩ := ih A B r h
      exact ⟨x :: A2, B2, rfl, hB⟩

theorem dictKeys_split_indexOf {α : Type} [DecidableEq α] :
    ∀ (l A B : List α) (r y : α), dictKeys l = A ++ r :: B → y ∈ B →
      List.indexOf r l < List.indexOf y l := by
  intro l
  induction l with
  | nil => intro A B r y h _; simp [dictKeys] at h
  | cons x xs ih =>
    intro A B r y h hy
    rw [dictKeys] at h
    cases A with
    | nil =>
      simp only [List.nil_append, List.cons.injEq] at h
      obtain ⟨rfl, hB⟩ := h
      rw [← hB] at hy
      have hyx : y ≠ x := by
        have := (List.mem_filter.mp hy).2
        simpa using this
      rw [List.indexOf_cons_self, List.indexOf_cons_ne xs (fun hxy => hyx hxy.symm)]
      exact Nat.succ_pos _
    | cons a A1 =>
      simp only [List.cons_append, List.cons.injEq] at h
      obtain ⟨rfl, h2⟩ := h
      have hrx : r ≠ x := by
        have hr : r ∈ (dictKeys xs).filter (fun y => decide (y ≠ x)) := by
          rw [h2]; exact List.mem_append.mpr (Or.inr (List.mem_cons_self _ _))
        simpa using (List.mem_filter.mp hr).2
      have hyx : y ≠ x := by
        have hym : y ∈ (dictKeys xs).filter (fun y => decide (y ≠ x)) := by
          rw [h2]
          exact List.mem_append.mpr (Or.inr (List.mem_cons_of_mem _ hy))
        simpa using (List.mem_filter.mp hym).2
      obtain ⟨A2, B2, hsplit, hB⟩ := filter_eq_append_cons _ _ _ _ _ h2
      have hyB2 : y ∈ B2 := by
        have : y ∈ B2.filter (fun y => decide (y ≠ x)) := by rw [hB]; exact hy
        exact (List.mem_filter.mp this).1
      have := ih A2 B2 r y hsplit hyB2
      rw [List.indexOf_cons_ne xs (fun hxy => hrx hxy.symm),
        List.indexOf_cons_ne xs (fun hxy => hyx hxy.symm)]
      exact Nat.succ_lt_succ this

theorem foldBest_cons (cnt : Nat → Nat) (b x : Nat) (xs : List Nat) :
    foldBest cnt b (x :: xs) = foldBest cnt (if cnt b < cnt x then x else b) xs := rfl

theorem foldBest_mem (cnt : Nat → Nat) :
    ∀ (l : List Nat) (b : Nat), foldBest cnt b l = b ∨ foldBest cnt b l ∈ l := by
  intro l
  induction l with
  | nil => intro b; left; rfl
  | cons x xs ih =>
    intro b
    rw [foldBest_cons]
    rcases ih (if cnt b < cnt x then x else b) with h | h
    · rw [h]
      split
      · right; exact List.mem_cons_self _ _
      · left; rfl
    · right; exact List.mem_cons_of_mem _ h

theorem foldBest_le (cnt : Nat → Nat) :
    ∀ (l : List Nat) (b x : Nat), (x = b ∨ x ∈ l) → cnt x ≤ cnt (foldBest cnt b l) := by
  intro l
  induction l with
  | nil =>
    intro b x hx
    rcases hx with rfl | hx
    · exact Nat.le_refl _
    · simp at hx
  | cons y ys ih =>
    intro b x hx
    rw [foldBest_cons]
    have hb : cnt b ≤ cnt (if cnt b < cnt y then y else b) := by
      split
      · omega
      · exact Nat.le_refl _
    have hy : cnt y ≤ cnt (if cnt b < cnt y then y else b) := by
      split
      · exact Nat.le_refl _
      · omega
    have hrec := ih (if cnt b < cnt y then y else b) (if cnt b < cnt y then y else b)
      (Or.inl rfl)
    rcases hx with rfl | hx
    · exact Nat.le_trans hb hrec
    · rcases List.mem_cons.mp hx with rfl | hx2
      · exact Nat.le_trans hy hrec
      · exact ih _ _ (Or.inr hx2)

theorem foldBest_first (cnt : Nat → Nat) :
    ∀ (l : List Nat) (b : Nat), foldBest cnt b l = b ∨
      ∃ A B2, l = A ++ foldBest cnt b l :: B2 ∧ cnt b < cnt (foldBest cnt b l) ∧
        ∀ z ∈ A, cnt z < cnt (foldBest cnt b l) := by
  intro l
  induction l with
  | nil => intro b; left; rfl
  | cons x xs ih =>
    intro b
    rw [foldBest_cons]
    by_cases hc : cnt b < cnt x
    · rw [if_pos hc]
      rcases ih x with h | ⟨A, B2, hsplit, hlt, hA⟩
      · right
        exact ⟨[], xs, by simp [h], by rw [h]; exact hc, by simp⟩
      · right
        refine ⟨x :: A, B2, by rw [List.cons_append, ← hsplit], Nat.lt_trans hc hlt, ?_⟩
        intro z hz
        rcases List.mem_cons.mp hz with rfl | hz2
        · exact hlt
        · exact hA z hz2
    · rw [if_neg hc]
      rcases ih b with h | ⟨A, B2, hsplit, hlt, hA⟩
      · left; exact h
      · right
        refine ⟨x :: A, B2, by rw [List.cons_append, ← hsplit], hlt, ?_⟩
        intro z hz
        rcases List.mem_cons.mp hz with rfl | hz2
        · omega
        · exact hA z hz2

/-! ### C3 -/

/-- C3: `Magazine.top_publisher` returns `None` exactly when the global
article registry is empty, and otherwise returns a magazine whose article
count (the number of registry articles whose `magazine` field references
it, i.e. the length of its `articles()` list) is maximal over all
magazines. -/
theorem top_publisher_max_spec (st : State) :
    (top_publisher st = none ↔ st.articles = []) ∧
    (∀ mid, countMag st mid = (Magazine_articles st mid).length) ∧
    (∀ r, top_publisher st = some r →
      r ∈ st.articles.map (fun a => a.magId) ∧
      ∀ mid, countMag st mid ≤ countMag st r) := by
  refine ⟨?_, ?_, ?_⟩
  · by_cases h : st.articles = []
    · simp [top_publisher, h]
    · simp only [top_publisher, if_neg h]
      cases harts : st.articles with
      | nil => exact absurd harts h
      | cons a as => simp [dictKeys, h]
  · intro mid
    rw [countMag, Magazine_articles, List.count, List.countP_map,
      List.countP_eq_length_filter]
    rfl
  · intro r hr
    by_cases h : st.articles = []
    · simp [top_publisher, h] at hr
    · rw [top_publisher, if_neg h] at hr
      cases hd : dictKeys (st.articles.map (fun a => a.magId)) with
      | nil => rw [hd] at hr; simp at hr
      | cons m ms =>
        rw [hd] at hr
        simp only [Option.some.injEq] at hr
        subst hr
        constructor
        · have hmem : foldBest (countMag st) m ms ∈ m :: ms := by
            rcases foldBest_mem (countMag st) ms m with he | hm
            · rw [he]; exact List.mem_cons_self _ _
            · exact List.mem_cons_of_mem _ hm
          rw [← hd] at hmem
          exact (mem_dictKeys _ _).mp hmem
        · intro mid
          by_cases hmid : mid ∈ st.articles.map (fun a => a.magId)
          · have : mid ∈ m :: ms := by rw [← hd]; exact (mem_dictKeys _ _).mpr hmid
            rcases List.mem_cons.mp this with rfl | hms
            · exact foldBest_le (countMag st) ms _ _ (Or.inl rfl)
            · exact foldBest_le (countMag st) ms _ _ (Or.inr hms)
          · rw [countMag, List.count_eq_zero_of_not_mem hmid]
            exact Nat.zero_le _

/-- Witness for C3: in the concrete state, magazine 0 (three articles) is
returned and beats magazine 1 (one article). -/
theorem top_publisher_max_spec_witness :
    countMag exSt 1 ≤ countMag exSt 0 :=
  ((top_publisher_max_spec exSt).2.2 0 (by decide)).2 1

/-! ### C9 -/

/-- C9: when several magazines tie for the maximal article count,
`Magazine.top_publisher` returns the tied magazine whose earliest article
comes first in the global registry: any distinct magazine with the same
article count has a strictly later first occurrence in the registry scan. -/
theorem top_publisher_tie_spec (st : State) (r y : Nat)
    (hr : top_publisher st = some r) (hy : countMag st y = countMag st r)
    (hne : y ≠ r) :
    List.indexOf r (st.articles.map (fun a => a.magId)) <
      List.indexOf y (st.articles.map (fun a => a.magId)) := by
  by_cases h : st.articles = []
  · simp [top_publisher, h] at hr
  · rw [top_publisher, if_neg h] at hr
    cases hd : dictKeys (st.articles.map (fun a => a.magId)) with
    | nil => rw [hd] at hr; simp at hr
    | cons m ms =>
      rw [hd] at hr
      simp only [Option.some.injEq] at hr
      have hrmem : r ∈ st.articles.map (fun a => a.magId) := by
        have : r ∈ m :: ms := by
          rcases foldBest_mem (countMag st) ms m with he | hm
          · rw [← hr, he]; exact List.mem_cons_self _ _
          · rw [← hr]; exact List.mem_cons_of_mem _ hm
        rw [← hd] at this
        exact (mem_dictKeys _ _).mp this
      have hrpos : 0 < countMag st r := by
        rw [countMag]
        exact List.count_pos_iff.mpr hrmem
      have hymem : y ∈ st.articles.map (fun a => a.magId) := by
        rw [countMag] at hy
        have : 0 < List.count y (st.articles.map (fun a => a.magId)) := by
          rw [hy]; exact hrpos
        exact List.count_pos_iff.mp this
      have hydk : y ∈ m :: ms := by
        rw [← hd]
        exact (mem_dictKeys _ _).mpr hymem
      rcases foldBest_first (countMag st) ms m with he | ⟨A, B2, hsplit, hlt, hA⟩
      · -- the head of the key order already wins; every other key is after it
        have hrm : r = m := by rw [← hr, he]
        subst hrm
        have hyms : y ∈ ms := by
          rcases List.mem_cons.mp hydk with rfl | hms
          · exact absurd rfl hne
          · exact hms
        exact dictKeys_split_indexOf _ [] ms r y (by simpa using hd) hyms
      · rw [← hr] at hy
        have hym : y ≠ m := by
          intro hym
          rw [hym] at hy
          omega
        have hynA : y ∉ A := by
          intro hyA
          have := hA y hyA
          rw [hy] at this
          exact Nat.lt_irrefl _ this
        have hyB2 : y ∈ B2 := by
          rcases List.mem_cons.mp hydk with rfl | hms
          · exact absurd rfl hym
          · rw [hsplit] at hms
            rcases List.mem_append.mp hms with hin | hin
            · exact absurd hin hynA
            · rcases List.mem_cons.mp hin with rfl | hin2
              · rw [← hr] at hne; exact absurd rfl hne
              · exact hin2
        refine dictKeys_split_indexOf _ (m :: A) B2 r y ?_ hyB2
        rw [hd, hsplit, hr]
        simp

/-- Witness for C9: in the tie state `exSt2`, magazines 1 and 0 both have
two articles; magazine 1 owns the registry's first article and wins, and
magazine 0's first article indeed comes later. -/
theorem top_publisher_tie_spec_witness :
    List.indexOf 1 (exSt2.articles.map (fun a => a.magId)) <
      List.indexOf 0 (exSt2.articles.map (fun a => a.magId)) :=
  top_publisher_tie_spec exSt2 1 0 (by decide) (by decide) (by decide)

/-! ### C2 -/

theorem magName_set_step (st : State) (mid : Nat) (w : PyVal)
    (h : 2 ≤ (magName st mid).length ∧ (magName st mid).length ≤ 16) :
    2 ≤ (magName (runSet st (Magazine_set_name st mid w)) mid).length ∧
      (magName (runSet st (Magazine_set_name st mid w)) mid).length ≤ 16 := by
  cases w with
  | str n =>
    by_cases hn : 2 ≤ n.length ∧ n.length ≤ 16
    · by_cases hmid : mid < st.magazines.length
      · simp only [Magazine_set_name, hn, not_true_eq_false, and_self, not_true,
          if_false, ite_false, runSet, magName, decide_True, Bool.not_true]
        rw [getD_set_self _ _ _ hmid]
        exact hn
      · simp only [Magazine_set_name, hn, not_true_eq_false, and_self, not_true,
          if_false, ite_false, runSet, magName, decide_True, Bool.not_true]
        rw [List.set_eq_of_length_le (Nat.le_of_not_lt hmid)]
        exact h
    · simp only [Magazine_set_name, hn, not_false_eq_true, if_true, ite_true, runSet]
      exact h
  | authorRef id => exact h
  | magRef id => exact h
  | intVal n => exact h

theorem magName_fold_inv (mid : Nat) (vs : List PyVal) :
    ∀ st : State, 2 ≤ (magName st mid).length ∧ (magName st mid).length ≤ 16 →
      2 ≤ (magName (vs.foldl (fun s w => runSet s (Magazine_set_name s mid w)) st) mid).length ∧
      (magName (vs.foldl (fun s w => runSet s (Magazine_set_name s mid w)) st) mid).length ≤ 16 := by
  induction vs with
  | nil => intro st h; exact h
  | cons w ws ih =>
    intro st h
    rw [List.foldl_cons]
    exact ih _ (magName_set_step st mid w h)

/-- C2: a magazine name with length in [2,16] keeps a length in [2,16]
across any sequence of `name` assignments (successful or raising), and an
assignment of a value that is not a string of length in [2,16] raises and
leaves the name at its prior value. -/
theorem magazine_name_spec (st : State) (mid : Nat) (vs : List PyVal) (v : PyVal)
    (hinit : 2 ≤ (magName st mid).length ∧ (magName st mid).length ≤ 16) :
    (2 ≤ (magName (vs.foldl (fun s w => runSet s (Magazine_set_name s mid w)) st) mid).length ∧
      (magName (vs.foldl (fun s w => runSet s (Magazine_set_name s mid w)) st) mid).length ≤ 16) ∧
    ((¬ ∃ n, v = PyVal.str n ∧ 2 ≤ n.length ∧ n.length ≤ 16) →
      (∃ e, Magazine_set_name st mid v = Except.error e) ∧
      magName (runSet st (Magazine_set_name st mid v)) mid = magName st mid) := by
  constructor
  · exact magName_fold_inv mid vs st hinit
  · intro hbad
    cases v with
    | str n =>
      have hn : ¬ (2 ≤ n.length ∧ n.length ≤ 16) := fun hc => hbad ⟨n, rfl, hc⟩
      simp [Magazine_set_name, hn, runSet]
    | authorRef id => simp [Magazine_set_name, runSet]
    | magRef id => simp [Magazine_set_name, runSet]
    | intVal n => simp [Magazine_set_name, runSet]

/-- Witness for C2 at a concrete invalid name (length 1). -/
theorem magazine_name_spec_witness :
    (∃ e, Magazine_set_name exSt 0 (PyVal.str "X") = Except.error e) ∧
    magName (runSet exSt (Magazine_set_name exSt 0 (PyVal.str "X"))) 0 = magName exSt 0 :=
  (magazine_name_spec exSt 0 [] (PyVal.str "X") (by decide)).2
    (by rintro ⟨n, hn, hlen⟩; cases hn; exact absurd hlen (by decide))

/-! ### C4 -/

/-- C4: `magazine.contributing_authors()` contains exactly the authors with
strictly more than 2 of this magazine's articles (so exactly 2 is
excluded), and it is `None` exactly when no author crosses the threshold
(never an empty list). -/
theorem contributing_authors_spec (st : State) (mid : Nat) :
    (∀ aid, (∃ l, Magazine_contributing_authors st mid = some l ∧ aid ∈ l) ↔
      2 < ((Magazine_articles st mid).map (fun a => a.authorId)).count aid) ∧
    (Magazine_contributing_authors st mid = none ↔
      ∀ aid, ((Magazine_articles st mid).map (fun a => a.authorId)).count aid ≤ 2) := by
  set ids := (Magazine_articles st mid).map (fun a => a.authorId) with hids
  set pro := (dictKeys ids).filter (fun a => decide (2 < ids.count a)) with hpro
  have hca : Magazine_contributing_authors st mid = if pro = [] then none else some pro := rfl
  have hmem : ∀ aid, aid ∈ pro ↔ 2 < ids.count aid := by
    intro aid
    rw [hpro, List.mem_filter, mem_dictKeys]
    constructor
    · intro h
      simpa using h.2
    · intro h
      exact ⟨List.count_pos_iff.mp (by omega), by simpa using h⟩
  constructor
  · intro aid
    rw [hca]
    by_cases hp : pro = []
    · rw [if_pos hp]
      constructor
      · rintro ⟨l, hl, _⟩
        cases hl
      · intro h
        have h2 := (hmem aid).mpr h
        rw [hp] at h2
        cases h2
    · rw [if_neg hp]
      constructor
      · rintro ⟨l, hl, hmem2⟩
        rw [Option.some.injEq] at hl
        exact (hmem aid).mp (hl ▸ hmem2)
      · intro h
        exact ⟨pro, rfl, (hmem aid).mpr h⟩
  · rw [hca]
    constructor
    · intro hnone aid
      by_cases hp : pro = []
      · by_contra hgt
        have h2 := (hmem aid).mpr (by omega)
        rw [hp] at h2
        cases h2
      · rw [if_neg hp] at hnone
        cases hnone
    · intro hall
      have hp : pro = [] := by
        by_contra hp
        obtain ⟨a, ha⟩ := List.exists_mem_of_ne_nil pro hp
        exact absurd ((hmem a).mp ha) (Nat.not_lt.mpr (hall a))
      rw [if_pos hp]

/-- Witness for C4: author 0 has three articles in magazine 0 of `exSt` and
is listed; the `None` characterization holds for magazine 1 (one article). -/
theorem contributing_authors_spec_witness :
    (∃ l, Magazine_contributing_authors exSt 0 = some l ∧ 0 ∈ l) ∧
    Magazine_contributing_authors exSt 1 = none :=
  ⟨((contributing_authors_spec exSt 0).1 0).mpr (by decide),
    ((contributing_authors_spec exSt 1).2).mpr (fun aid => by
      have h1 : (Magazine_articles exSt 1).map (fun a => a.authorId) = [1] := by decide
      rw [h1]
      exact Nat.le_trans (List.count_le_length aid [1]) (by decide))⟩

/-! ### C7 -/

/-- C7: `author.topic_areas()` is `None` exactly when the author has no
articles (so the no-data case is distinguishable from any `some` result),
and otherwise is a nonempty list holding exactly the distinct categories of
the magazines of the author's articles. -/
theorem topic_areas_spec (st : State) (aid : Nat) :
    (Author_topic_areas st aid = none ↔ Author_articles st aid = []) ∧
    (∀ l, Author_topic_areas st aid = some l →
      l ≠ [] ∧
      ∀ c, c ∈ l ↔ c ∈ (Author_articles st aid).map
        (fun a => (st.magazines.getD a.magId default).category)) := by
  constructor
  · by_cases h : Author_articles st aid = []
    · simp [Author_topic_areas, h]
    · simp [Author_topic_areas, h]
  · intro l hl
    rw [Author_topic_areas] at hl
    by_cases h : Author_articles st aid = []
    · rw [if_pos h] at hl
      cases hl
    · rw [if_neg h] at hl
      rw [Option.some.injEq] at hl
      subst hl
      constructor
      · cases harts : Author_articles st aid with
        | nil => exact absurd harts h
        | cons a as => simp [harts, dictKeys]
      · intro c
        exact mem_dictKeys _ _

/-- Witness for C7: author 1 of `exSt` has one article, in the Tech
magazine, so `topic_areas` is `some` and contains "Tech". -/
theorem topic_areas_spec_witness :
    Author_topic_areas exSt 1 ≠ none ∧ "Tech" ∈ ["Tech"] := by
  constructor
  · intro h
    exact absurd ((topic_areas_spec exSt 1).1.mp h) (by decide)
  · exact (((topic_areas_spec exSt 1).2 ["Tech"] (by decide)).2 "Tech").mpr (by decide)

/-! ### C10 -/

/-- C10: validation checks only type and length, never content: every
string of length ≥ 1 (e.g. whitespace-only) is accepted by the Author
constructor and the Magazine category setter, and every string of length in
[2,16] by Magazine construction and name assignment. -/
theorem validation_length_only_spec (st : State) (mid : Nat) (s t c : String)
    (hs : 1 ≤ s.length) (ht : 2 ≤ t.length ∧ t.length ≤ 16) (hc : 1 ≤ c.length) :
    okB (Author_init st (PyVal.str s)) = true ∧
    okB (Magazine_set_category st mid (PyVal.str c)) = true ∧
    okB (Magazine_init st (PyVal.str t) (PyVal.str c)) = true ∧
    okB (Magazine_set_name st mid (PyVal.str t)) = true := by
  have hs0 : ¬ (s.length ≤ 0) := by omega
  have hc0 : ¬ (c.length ≤ 0) := by omega
  refine ⟨?_, ?_, ?_, ?_⟩
  · simp [Author_init, hs0, okB]
  · simp [Magazine_set_category, hc0, okB]
  · simp [Magazine_init, ht, hc0, okB]
  · simp [Magazine_set_name, ht, okB]

/-- Witness for C10 with whitespace-only strings. -/
theorem validation_length_only_spec_witness :
    okB (Author_init exSt (PyVal.str " ")) = true ∧
    okB (Magazine_set_category exSt 0 (PyVal.str " ")) = true ∧
    okB (Magazine_init exSt (PyVal.str "  ") (PyVal.str " ")) = true ∧
    okB (Magazine_set_name exSt 0 (PyVal.str "  ")) = true :=
  validation_length_only_spec exSt 0 " " "  " " " (by decide) (by decide) (by decide)


/-! ### C6 -/

theorem set_getD_frame {α : Type} [Inhabited α] (l : List α) (i : Nat) (x : α) :
    ∀ j, j ≠ i → (l.set i x).getD j default = l.getD j default :=
  fun _ hj => getD_set_ne _ x (Ne.symm hj)

/-- C6: no partial construction or mutation: a failing constructor leaves
every registry unchanged, and each setter either raises leaving the state
untouched, or changes nothing but the targeted field of the targeted
entity. -/
theorem atomicity_spec (st : State) (u v w x : PyVal) (mid i : Nat) :
    ((∃ e, Author_init st u = Except.error e) → run st (Author_init st u) = st) ∧
    ((∃ e, Magazine_init st u v = Except.error e) → run st (Magazine_init st u v) = st) ∧
    ((∃ e, Article_init st u v w = Except.error e) → run st (Article_init st u v w) = st) ∧
    ((∃ e, Magazine_set_name st mid x = Except.error e) →
      runSet st (Magazine_set_name st mid x) = st) ∧
    ((∃ e, Magazine_set_category st mid x = Except.error e) →
      runSet st (Magazine_set_category st mid x) = st) ∧
    ((∃ e, Article_set_author st i x = Except.error e) →
      runSet st (Article_set_author st i x) = st) ∧
    ((∃ e, Article_set_magazine st i x = Except.error e) →
      runSet st (Article_set_magazine st i x) = st) ∧
    (∀ st2, Magazine_set_name st mid x = Except.ok st2 →
      st2.authors = st.authors ∧ st2.articles = st.articles ∧
      st2.magazines.length = st.magazines.length ∧
      (∀ j, j ≠ mid → st2.magazines.getD j default = st.magazines.getD j default) ∧
      magCategory st2 mid = magCategory st mid) ∧
    (∀ st2, Magazine_set_category st mid x = Except.ok st2 →
      st2.authors = st.authors ∧ st2.articles = st.articles ∧
      st2.magazines.length = st.magazines.length ∧
      (∀ j, j ≠ mid → st2.magazines.getD j default = st.magazines.getD j default) ∧
      magName st2 mid = magName st mid) ∧
    (∀ st2, Article_set_author st i x = Except.ok st2 →
      st2.authors = st.authors ∧ st2.magazines = st.magazines ∧
      st2.articles.length = st.articles.length ∧
      (∀ j, j ≠ i → st2.articles.getD j default = st.articles.getD j default) ∧
      (st2.articles.getD i default).title = (st.articles.getD i default).title ∧
      (st2.articles.getD i default).magId = (st.articles.getD i default).magId) ∧
    (∀ st2, Article_set_magazine st i x = Except.ok st2 →
      st2.authors = st.authors ∧ st2.magazines = st.magazines ∧
      st2.articles.length = st.articles.length ∧
      (∀ j, j ≠ i → st2.articles.getD j default = st.articles.getD j default) ∧
      (st2.articles.getD i default).title = (st.articles.getD i default).title ∧
      (st2.articles.getD i default).authorId = (st.articles.getD i default).authorId) := by
  refine ⟨?_, ?_, ?_, ?_, ?_, ?_, ?_, ?_, ?_, ?_, ?_⟩
  · rintro ⟨e, he⟩; rw [he]; rfl
  · rintro ⟨e, he⟩; rw [he]; rfl
  · rintro ⟨e, he⟩; rw [he]; rfl
  · rintro ⟨e, he⟩; rw [he]; rfl
  · rintro ⟨e, he⟩; rw [he]; rfl
  · rintro ⟨e, he⟩; rw [he]; rfl
  · rintro ⟨e, he⟩; rw [he]; rfl
  · intro st2 h2
    cases x with
    | str n =>
      simp only [Magazine_set_name] at h2
      by_cases hn : 2 ≤ n.length ∧ n.length ≤ 16
      · rw [if_neg (not_not_intro hn), Except.ok.injEq] at h2
        subst h2
        refine ⟨rfl, rfl, List.length_set _ _ _, set_getD_frame _ _ _, ?_⟩
        by_cases hmid : mid < st.magazines.length
        · show ((st.magazines.set mid _).getD mid default).category = _
          rw [getD_set_self _ _ _ hmid]
          rfl
        · show ((st.magazines.set mid _).getD mid default).category = _
          rw [List.set_eq_of_length_le (Nat.le_of_not_lt hmid)]
          rfl
      · rw [if_pos hn] at h2; cases h2
    | authorRef id => cases h2
    | magRef id => cases h2
    | intVal n => cases h2
  · intro st2 h2
    cases x with
    | str c =>
      simp only [Magazine_set_category] at h2
      by_cases hc : c.length ≤ 0
      · rw [if_pos hc] at h2; cases h2
      · rw [if_neg hc, Except.ok.injEq] at h2
        subst h2
        refine ⟨rfl, rfl, List.length_set _ _ _, set_getD_frame _ _ _, ?_⟩
        by_cases hmid : mid < st.magazines.length
        · show ((st.magazines.set mid _).getD mid default).name = _
          rw [getD_set_self _ _ _ hmid]
          rfl
        · show ((st.magazines.set mid _).getD mid default).name = _
          rw [List.set_eq_of_length_le (Nat.le_of_not_lt hmid)]
          rfl
    | authorRef id => cases h2
    | magRef id => cases h2
    | intVal n => cases h2
  · intro st2 h2
    cases x with
    | authorRef bid =>
      simp only [Article_set_author] at h2
      by_cases hb : bid < st.authors.length
      · rw [if_pos hb, Except.ok.injEq] at h2
        subst h2
        refine ⟨rfl, rfl, List.length_set _ _ _, set_getD_frame _ _ _, ?_, ?_⟩
        · by_cases hi : i < st.articles.length
          · show ((st.articles.set i _).getD i default).title = _
            rw [getD_set_self _ _ _ hi]
          · show ((st.articles.set i _).getD i default).title = _
            rw [List.set_eq_of_length_le (Nat.le_of_not_lt hi)]
        · by_cases hi : i < st.articles.length
          · show ((st.articles.set i _).getD i default).magId = _
            rw [getD_set_self _ _ _ hi]
          · show ((st.articles.set i _).getD i default).magId = _
            rw [List.set_eq_of_length_le (Nat.le_of_not_lt hi)]
      · rw [if_neg hb] at h2; cases h2
    | magRef id => cases h2
    | str s => cases h2
    | intVal n => cases h2
  · intro st2 h2
    cases x with
    | magRef bid =>
      simp only [Article_set_magazine] at h2
      by_cases hb : bid < st.magazines.length
      · rw [if_pos hb, Except.ok.injEq] at h2
        subst h2
        refine ⟨rfl, rfl, List.length_set _ _ _, set_getD_frame _ _ _, ?_, ?_⟩
        · by_cases hi : i < st.articles.length
          · show ((st.articles.set i _).getD i default).title = _
            rw [getD_set_self _ _ _ hi]
          · show ((st.articles.set i _).getD i default).title = _
            rw [List.set_eq_of_length_le (Nat.le_of_not_lt hi)]
        · by_cases hi : i < st.articles.length
          · show ((st.articles.set i _).getD i default).authorId = _
            rw [getD_set_self _ _ _ hi]
          · show ((st.articles.set i _).getD i default).authorId = _
            rw [List.set_eq_of_length_le (Nat.le_of_not_lt hi)]
      · rw [if_neg hb] at h2; cases h2
    | authorRef id => cases h2
    | str s => cases h2
    | intVal n => cases h2

/-- Witness for C6: a failing Author construction (non-string name) leaves
the concrete state unchanged. -/
theorem atomicity_spec_witness :
    run exSt (Author_init exSt (PyVal.intVal 3)) = exSt :=
  (atomicity_spec exSt (PyVal.intVal 3) (PyVal.intVal 3) (PyVal.intVal 3)
    (PyVal.intVal 3) 0 0).1 ⟨"Name must be a string", rfl⟩

/-! ### C8 -/

/-- The title-length invariant of the article registry: every stored title
has length in [5,50]. -/
def titlesValid (st : State) : Prop :=
  ∀ a ∈ st.articles, 5 ≤ a.title.length ∧ a.title.length ≤ 50

instance (st : State) : Decidable (titlesValid st) :=
  inferInstanceAs (Decidable (∀ a ∈ st.articles, 5 ≤ a.title.length ∧ a.title.length ≤ 50))

theorem titlesValid_set (st : State) (h : titlesValid st) (i : Nat) (b : Art)
    (hb : b.title = (st.articles.getD i default).title) :
    ∀ a ∈ st.articles.set i b, 5 ≤ a.title.length ∧ a.title.length ≤ 50 := by
  intro a ha
  by_cases hi : i < st.articles.length
  · rcases List.mem_or_eq_of_mem_set ha with hmem | rfl
    · exact h a hmem
    · rw [hb, List.getD_eq_getElem _ _ hi]
      exact h _ (List.getElem_mem hi)
  · rw [List.set_eq_of_length_le (Nat.le_of_not_lt hi)] at ha
    exact h a ha

/-- C8: the stored title of an article never changes: assignment to `title`
raises (read-only property) leaving the state unchanged, the author and
magazine setters preserve every stored title, every constructor preserves
the titles of existing articles, and the title-length invariant [5,50] is
preserved by every public operation. -/
theorem title_immutable_spec (st : State) (u v w x : PyVal) (i mid : Nat) :
    ((∃ e, Article_set_title st i x = Except.error e) ∧
      runSet st (Article_set_title st i x) = st) ∧
    (∀ st2, Article_set_author st i x = Except.ok st2 →
      ∀ j, (st2.articles.getD j default).title = (st.articles.getD j default).title) ∧
    (∀ st2, Article_set_magazine st i x = Except.ok st2 →
      ∀ j, (st2.articles.getD j default).title = (st.articles.getD j default).title) ∧
    (∀ st2, Magazine_set_name st mid x = Except.ok st2 → st2.articles = st.articles) ∧
    (∀ st2, Magazine_set_category st mid x = Except.ok st2 → st2.articles = st.articles) ∧
    (∀ p, Author_init st u = Except.ok p → (p.1).articles = st.articles) ∧
    (∀ p, Magazine_init st u v = Except.ok p → (p.1).articles = st.articles) ∧
    (∀ p, Article_init st u v w = Except.ok p →
      ∀ j, j < st.articles.length →
        (p.1).articles.getD j default = st.articles.getD j default) ∧
    (titlesValid st → titlesValid (run st (Article_init st u v w))) ∧
    (titlesValid st → titlesValid (runSet st (Article_set_author st i x))) ∧
    (titlesValid st → titlesValid (runSet st (Article_set_magazine st i x))) ∧
    (titlesValid st → titlesValid (runSet st (Magazine_set_name st mid x))) ∧
    (titlesValid st → titlesValid (runSet st (Magazine_set_category st mid x))) ∧
    (titlesValid st → titlesValid (run st (Author_init st u))) ∧
    (titlesValid st → titlesValid (run st (Magazine_init st u v))) := by
  refine ⟨⟨⟨_, rfl⟩, rfl⟩, ?_, ?_, ?_, ?_, ?_, ?_, ?_, ?_, ?_, ?_, ?_, ?_, ?_, ?_⟩
  · intro st2 h2
    cases x with
    | authorRef bid =>
      simp only [Article_set_author] at h2
      by_cases hb : bid < st.authors.length
      · rw [if_pos hb, Except.ok.injEq] at h2
        subst h2
        intro j
        by_cases hj : j = i
        · subst hj
          by_cases hij : j < st.articles.length
          · show ((st.articles.set j _).getD j default).title = _
            rw [getD_set_self _ _ _ hij]
          · show ((st.articles.set j _).getD j default).title = _
            rw [List.set_eq_of_length_le (Nat.le_of_not_lt hij)]
        · show ((st.articles.set i _).getD j default).title = _
          rw [getD_set_ne _ _ (Ne.symm hj)]
      · rw [if_neg hb] at h2; cases h2
    | magRef id => cases h2
    | str s => cases h2
    | intVal n => cases h2
  · intro st2 h2
    cases x with
    | magRef bid =>
      simp only [Article_set_magazine] at h2
      by_cases hb : bid < st.magazines.length
      · rw [if_pos hb, Except.ok.injEq] at h2
        subst h2
        intro j
        by_cases hj : j = i
        · subst hj
          by_cases hij : j < st.articles.length
          · show ((st.articles.set j _).getD j default).title = _
            rw [getD_set_self _ _ _ hij]
          · show ((st.articles.set j _).getD j default).title = _
            rw [List.set_eq_of_length_le (Nat.le_of_not_lt hij)]
        · show ((st.articles.set i _).getD j default).title = _
          rw [getD_set_ne _ _ (Ne.symm hj)]
      · rw [if_neg hb] at h2; cases h2
    | authorRef id => cases h2
    | str s => cases h2
    | intVal n => cases h2
  · intro st2 h2
    cases x with
    | str n =>
      simp only [Magazine_set_name] at h2
      by_cases hn : 2 ≤ n.length ∧ n.length ≤ 16
      · rw [if_neg (not_not_intro hn), Except.ok.injEq] at h2
        subst h2
        rfl
      · rw [if_pos hn] at h2; cases h2
    | authorRef id => cases h2
    | magRef id => cases h2
    | intVal n => cases h2
  · intro st2 h2
    cases x with
    | str c =>
      simp only [Magazine_set_category] at h2
      by_cases hc : c.length ≤ 0
      · rw [if_pos hc] at h2; cases h2
      · rw [if_neg hc, Except.ok.injEq] at h2
        subst h2
        rfl
    | authorRef id => cases h2
    | magRef id => cases h2
    | intVal n => cases h2
  · intro p h2
    cases u with
    | str s =>
      simp only [Author_init] at h2
      by_cases hs : s.length ≤ 0
      · rw [if_pos hs] at h2; cases h2
      · rw [if_neg hs, Except.ok.injEq] at h2
        subst h2
        rfl
    | authorRef id => cases h2
    | magRef id => cases h2
    | intVal n => cases h2
  · intro p h2
    cases u with
    | str n =>
      cases v with
      | str c =>
        simp only [Magazine_init] at h2
        by_cases hn : 2 ≤ n.length ∧ n.length ≤ 16
        · rw [if_neg (not_not_intro hn)] at h2
          by_cases hc : c.length ≤ 0
          · rw [if_pos hc] at h2; cases h2
          · rw [if_neg hc, Except.ok.injEq] at h2
            subst h2
            rfl
        · rw [if_pos hn] at h2; cases h2
      | authorRef id =>
        simp only [Magazine_init] at h2
        by_cases hn : 2 ≤ n.length ∧ n.length ≤ 16
        · rw [if_neg (not_not_intro hn)] at h2; cases h2
        · rw [if_pos hn] at h2; cases h2
      | magRef id =>
        simp only [Magazine_init] at h2
        by_cases hn : 2 ≤ n.length ∧ n.length ≤ 16
        · rw [if_neg (not_not_intro hn)] at h2; cases h2
        · rw [if_pos hn] at h2; cases h2
      | intVal m =>
        simp only [Magazine_init] at h2
        by_cases hn : 2 ≤ n.length ∧ n.length ≤ 16
        · rw [if_neg (not_not_intro hn)] at h2; cases h2
        · rw [if_pos hn] at h2; cases h2
    | authorRef id => cases h2
    | magRef id => cases h2
    | intVal n => cases h2
  · intro p h2
    cases u with
    | authorRef aid =>
      cases v with
      | magRef mid2 =>
        cases w with
        | str t =>
          simp only [Article_init] at h2
          by_cases ha : aid < st.authors.length
          · rw [if_pos ha] at h2
            by_cases hm : mid2 < st.magazines.length
            · rw [if_pos hm] at h2
              by_cases htl : 5 ≤ t.length ∧ t.length ≤ 50
              · rw [if_pos htl, Except.ok.injEq] at h2
                subst h2
                intro j hj
                exact List.getD_append _ _ _ _ hj
              · rw [if_neg htl] at h2; cases h2
            · rw [if_neg hm] at h2; cases h2
          · rw [if_neg ha] at h2; cases h2
        | authorRef id =>
          simp only [Article_init] at h2
          by_cases ha : aid < st.authors.length
          · rw [if_pos ha] at h2
            by_cases hm : mid2 < st.magazines.length
            · rw [if_pos hm] at h2; cases h2
            · rw [if_neg hm] at h2; cases h2
          · rw [if_neg ha] at h2; cases h2
        | magRef id =>
          simp only [Article_init] at h2
          by_cases ha : aid < st.authors.length
          · rw [if_pos ha] at h2
            by_cases hm : mid2 < st.magazines.length
            · rw [if_pos hm] at h2; cases h2
            · rw [if_neg hm] at h2; cases h2
          · rw [if_neg ha] at h2; cases h2
        | intVal n =>
          simp only [Article_init] at h2
          by_cases ha : aid < st.authors.length
          · rw [if_pos ha] at h2
            by_cases hm : mid2 < st.magazines.length
            · rw [if_pos hm] at h2; cases h2
            · rw [if_neg hm] at h2; cases h2
          · rw [if_neg ha] at h2; cases h2
      | authorRef id =>
        simp only [Article_init] at h2
        by_cases ha : aid < st.authors.length
        · rw [if_pos ha] at h2; cases h2
        · rw [if_neg ha] at h2; cases h2
      | str s =>
        simp only [Article_init] at h2
        by_cases ha : aid < st.authors.length
        · rw [if_pos ha] at h2; cases h2
        · rw [if_neg ha] at h2; cases h2
      | intVal n =>
        simp only [Article_init] at h2
        by_cases ha : aid < st.authors.length
        · rw [if_pos ha] at h2; cases h2
        · rw [if_neg ha] at h2; cases h2
    | magRef id => cases h2
    | str s => cases h2
    | intVal n => cases h2
  · intro h
    cases u with
    | authorRef aid =>
      by_cases ha : aid < st.authors.length
      · cases v with
        | magRef mid2 =>
          by_cases hm : mid2 < st.magazines.length
          · cases w with
            | str t =>
              by_cases htl : 5 ≤ t.length ∧ t.length ≤ 50
              · simp only [Article_init, if_pos ha, if_pos hm, if_pos htl, run]
                intro a ha2
                rcases List.mem_append.mp ha2 with h1 | h1
                · exact h a h1
                · rw [List.mem_singleton.mp h1]
                  exact htl
              · simp only [Article_init, if_pos ha, if_pos hm, if_neg htl, run]; exact h
            | authorRef id => simp only [Article_init, if_pos ha, if_pos hm, run]; exact h
            | magRef id => simp only [Article_init, if_pos ha, if_pos hm, run]; exact h
            | intVal n => simp only [Article_init, if_pos ha, if_pos hm, run]; exact h
          · simp only [Article_init, if_pos ha, if_neg hm, run]
            exact h
        | authorRef id => simp only [Article_init, if_pos ha, run]; exact h
        | str s => simp only [Article_init, if_pos ha, run]; exact h
        | intVal n => simp only [Article_init, if_pos ha, run]; exact h
      · simp only [Article_init, if_neg ha, run]
        exact h
    | magRef id => exact h
    | str s => exact h
    | intVal n => exact h
  · intro h
    cases x with
    | authorRef bid =>
      by_cases hb : bid < st.authors.length
      · simp only [Article_set_author, if_pos hb, runSet]
        exact titlesValid_set st h i _ rfl
      · simp only [Article_set_author, if_neg hb, runSet]; exact h
    | magRef id => exact h
    | str s => exact h
    | intVal n => exact h
  · intro h
    cases x with
    | magRef bid =>
      by_cases hb : bid < st.magazines.length
      · simp only [Article_set_magazine, if_pos hb, runSet]
        exact titlesValid_set st h i _ rfl
      · simp only [Article_set_magazine, if_neg hb, runSet]; exact h
    | authorRef id => exact h
    | str s => exact h
    | intVal n => exact h
  · intro h
    cases x with
    | str n =>
      by_cases hn : 2 ≤ n.length ∧ n.length ≤ 16
      · simp only [Magazine_set_name, if_neg (not_not_intro hn), runSet]
        exact h
      · simp only [Magazine_set_name, if_pos hn, runSet]; exact h
    | authorRef id => exact h
    | magRef id => exact h
    | intVal n => exact h
  · intro h
    cases x with
    | str c =>
      by_cases hc : c.length ≤ 0
      · simp only [Magazine_set_category, if_pos hc, runSet]; exact h
      · simp only [Magazine_set_category, if_neg hc, runSet]
        exact h
    | authorRef id => exact h
    | magRef id => exact h
    | intVal n => exact h
  · intro h
    cases u with
    | str s =>
      by_cases hs : s.length ≤ 0
      · simp only [Author_init, if_pos hs, run]; exact h
      · simp only [Author_init, if_neg hs, run]; exact h
    | authorRef id => exact h
    | magRef id => exact h
    | intVal n => exact h
  · intro h
    cases u with
    | str n =>
      by_cases hn : 2 ≤ n.length ∧ n.length ≤ 16
      · cases v with
        | str c =>
          by_cases hc : c.length ≤ 0
          · simp only [Magazine_init, if_neg (not_not_intro hn), if_pos hc, run]; exact h
          · simp only [Magazine_init, if_neg (not_not_intro hn), if_neg hc, run]; exact h
        | authorRef id => simp only [Magazine_init, if_neg (not_not_intro hn), run]; exact h
        | magRef id => simp only [Magazine_init, if_neg (not_not_intro hn), run]; exact h
        | intVal m => simp only [Magazine_init, if_neg (not_not_intro hn), run]; exact h
      · simp only [Magazine_init, if_pos hn, run]
        cases v <;> exact h
    | authorRef id => exact h
    | magRef id => exact h
    | intVal n => exact h

/-- Witness for C8: assigning to `title` on a concrete article raises and
changes nothing, and a concrete author reassignment keeps the title-length
invariant. -/
theorem title_immutable_spec_witness :
    ((∃ e, Article_set_title exSt 0 (PyVal.str "A brand new title") = Except.error e) ∧
      runSet exSt (Article_set_title exSt 0 (PyVal.str "A brand new title")) = exSt) ∧
    titlesValid (runSet exSt (Article_set_author exSt 0 (PyVal.authorRef 1))) := by
  constructor
  · exact (title_immutable_spec exSt (PyVal.str "Ama") (PyVal.str "Arts")
      (PyVal.str "Cool story") (PyVal.str "A brand new title") 0 0).1
  · exact (title_immutable_spec exSt (PyVal.str "Ama") (PyVal.str "Arts")
      (PyVal.str "Cool story") (PyVal.authorRef 1) 0 0).2.2.2.2.2.2.2.2.2.1 (by decide)

/-! ### C5 -/

theorem filter_snd_cons_pos {α : Type} (q : α → Bool) (x : Nat × α) (L : List (Nat × α))
    (h : q x.2 = true) :
    (x :: L).filter (fun p => q p.2) = x :: L.filter (fun p => q p.2) :=
  List.filter_cons_of_pos h

theorem filter_snd_cons_neg {α : Type} (q : α → Bool) (x : Nat × α) (L : List (Nat × α))
    (h : ¬ q x.2 = true) :
    (x :: L).filter (fun p => q p.2) = L.filter (fun p => q p.2) :=
  List.filter_cons_of_neg (by simpa using h)

theorem map_snd_filter_enumFrom {α : Type} (q : α → Bool) :
    ∀ (l : List α) (n : Nat),
      ((List.enumFrom n l).filter (fun p => q p.2)).map Prod.snd = l.filter q := by
  intro l
  induction l with
  | nil => intro n; rfl
  | cons a as ih =>
    intro n
    rw [List.enumFrom_cons]
    by_cases hq : q a = true
    · rw [filter_snd_cons_pos q _ _ hq, List.filter_cons_of_pos hq, List.map_cons, ih]
    · rw [filter_snd_cons_neg q _ _ (by simpa using hq),
        List.filter_cons_of_neg (by simpa using hq)]
      exact ih _

theorem mem_map_fst_filter_enumFrom {α : Type} [Inhabited α] (q : α → Bool) :
    ∀ (l : List α) (n j : Nat),
      (j ∈ ((List.enumFrom n l).filter (fun p => q p.2)).map Prod.fst ↔
        ∃ k, k < l.length ∧ j = n + k ∧ q (l.getD k default) = true) := by
  intro l
  induction l with
  | nil => intro n j; simp [List.enumFrom]
  | cons a as ih =>
    intro n j
    rw [List.enumFrom_cons]
    by_cases hq : q a = true
    · rw [filter_snd_cons_pos q _ _ hq, List.map_cons, List.mem_cons, ih (n + 1) j]
      constructor
      · rintro (h | ⟨k, hk, rfl, hqk⟩)
        · refine ⟨0, Nat.succ_pos _, ?_, ?_⟩
          · simpa using h
          · simpa using hq
        · exact ⟨k + 1, Nat.succ_lt_succ hk, by omega, by simpa using hqk⟩
      · rintro ⟨k, hk, rfl, hqk⟩
        cases k with
        | zero => left; simp
        | succ k2 =>
          right
          exact ⟨k2, Nat.lt_of_succ_lt_succ hk, by omega, by simpa using hqk⟩
    · rw [filter_snd_cons_neg q _ _ (by simpa using hq), ih (n + 1) j]
      constructor
      · rintro ⟨k, hk, rfl, hqk⟩
        exact ⟨k + 1, Nat.succ_lt_succ hk, by omega, by simpa using hqk⟩
      · rintro ⟨k, hk, rfl, hqk⟩
        cases k with
        | zero =>
          rw [List.getD_cons_zero] at hqk
          exact absurd hqk hq
        | succ k2 =>
          exact ⟨k2, Nat.lt_of_succ_lt_succ hk, by omega, by simpa using hqk⟩

/-- C5: `author.articles()` is exactly the registry articles whose `author`
field currently references this author, in registry insertion order (an
order-preserving sublist of the registry, equal to the article component of
the filtered indexed registry scan); position `j` qualifies exactly when
the article stored at `j` references the author; and after a successful
reassignment of article `i` to author `bid`, article `i` appears in the
derived list of `bid` and of no other author, all other articles being
untouched. -/
theorem author_articles_spec (st : State) (aid i bid : Nat)
    (hi : i < st.articles.length) (hb : bid < st.authors.length) :
    (Author_articles st aid).Sublist st.articles ∧
    (∀ a, a ∈ Author_articles st aid ↔ a ∈ st.articles ∧ a.authorId = aid) ∧
    (Author_articles st aid =
      ((st.articles.enum.filter (fun p => p.2.authorId == aid)).map Prod.snd)) ∧
    (∀ j, j ∈ ((st.articles.enum.filter (fun p => p.2.authorId == aid)).map Prod.fst) ↔
      (j < st.articles.length ∧ (st.articles.getD j default).authorId = aid)) ∧
    (∃ st2, Article_set_author st i (PyVal.authorRef bid) = Except.ok st2 ∧
      st2.articles.length = st.articles.length ∧
      (∀ j, j ≠ i → st2.articles.getD j default = st.articles.getD j default) ∧
      ∀ cid, (i ∈ ((st2.articles.enum.filter (fun p => p.2.authorId == cid)).map Prod.fst)
        ↔ cid = bid)) := by
  refine ⟨List.filter_sublist _, ?_, ?_, ?_, ?_⟩
  · intro a
    rw [Author_articles, List.mem_filter]
    simp
  · exact (map_snd_filter_enumFrom _ st.articles 0).symm
  · intro j
    have hiff := mem_map_fst_filter_enumFrom (fun a => a.authorId == aid) st.articles 0 j
    constructor
    · intro hmem
      obtain ⟨k, hk, hjk, hqk⟩ := hiff.mp hmem
      have hkj : k = j := by omega
      subst hkj
      exact ⟨hk, by simpa using hqk⟩
    · rintro ⟨hj, hq⟩
      exact hiff.mpr ⟨j, hj, by omega, by simpa using hq⟩
  · set b : Art := { st.articles.getD i default with authorId := bid } with hbdef
    refine ⟨{ st with articles := st.articles.set i b }, ?_, ?_, ?_, ?_⟩
    · simp only [Article_set_author]
      rw [if_pos hb]
    · exact List.length_set _ _ _
    · exact set_getD_frame _ _ _
    · intro cid
      have hiff := mem_map_fst_filter_enumFrom (fun a => a.authorId == cid)
        (st.articles.set i b) 0 i
      constructor
      · intro hmem
        obtain ⟨k, hk, hik, hqk⟩ := hiff.mp hmem
        have hki : k = i := by omega
        subst hki
        rw [getD_set_self _ _ _ hi] at hqk
        have hbc : bid = cid := by
          rw [hbdef] at hqk
          simpa using hqk
        exact hbc.symm
      · rintro rfl
        refine hiff.mpr ⟨i, ?_, by omega, ?_⟩
        · rw [List.length_set]
          exact hi
        · rw [getD_set_self _ _ _ hi, hbdef]
          simp

/-- Witness for C5 at a concrete state: author 0's derived article list is
an in-order sublist of the registry. -/
theorem author_articles_spec_witness :
    (Author_articles exSt 0).Sublist exSt.articles :=
  (author_articles_spec exSt 0 3 0 (by decide) (by decide)).1
